import Mathlib

/-!
# Bus Reports Exporter — verification of the reporting pipeline

Shallow embedding of `src/main.py`: a batch pipeline that turns a transit
dataset (stops, vehicles with vehicle events, duties) into a per-duty report
with start/end times, start/end stop names and qualifying break intervals.

Modelling conventions:
* Python `timedelta` values are whole seconds, modelled as `Int`
  (every duration built by the code is `days*86400 + hours*3600 + minutes*60`);
  the constructor's ±999999999-day bound is modelled in `timedeltaOf`, whose
  overflow lands in the same swallowed-exception path as a parse failure.
* Python dict/key access with `.get(k, default)` becomes `Option.getD`;
  bare `[k]` access on a possibly-missing key becomes an `Except Unit`
  result, where `.error ()` models an uncaught `KeyError`.
* `pandas` data frames are lists of rows (structures); `pd.merge(..., on,
  how := left)` becomes an explicit left join on the key.
* Python `sorted` is a stable sort; it is modelled with `List.insertionSort`,
  which is also stable, so the outputs coincide.
* Python `int(...)` on a string is modelled as an optional sign followed by
  decimal digits.
-/

/-- A stop record: `{stop_id, stop_name}`.  Both fields are accessed with
`stop['stop_id']` / `stop['stop_name']` in `main.py`, so they are required. -/
structure Stop where
  stop_id : String
  stop_name : String
deriving DecidableEq

/-- A vehicle event.  `duty_id` and `vehicle_event_sequence` are accessed with
bare indexing in the code, the remaining fields through `.get` (or bare
indexing on paths the error-handling claims are about), so they are optional. -/
structure VehicleEvent where
  duty_id : String
  vehicle_event_sequence : Int
  vehicle_event_type : Option String
  start_time : Option String
  end_time : Option String
  origin_stop_id : Option String
  destination_stop_id : Option String
deriving DecidableEq

/-- A vehicle owns an ordered list of events (`vehicle['vehicle_events']`). -/
structure Vehicle where
  vehicle_events : List VehicleEvent
deriving DecidableEq

/-- A duty: only `duty['duty_id']` is used by the pipeline. -/
structure Duty where
  duty_id : String
deriving DecidableEq

/-- A row of the Step-1 report: Duty ID, Start time, End time. -/
structure Row1 where
  dutyId : String
  startTime : String
  endTime : String
deriving DecidableEq

/-- A row after Step 2: the Step-1 columns plus the two stop-name columns.
`none` models a cell the code never wrote (pandas `NaN`). -/
structure Row2 where
  base : Row1
  startStop : Option String
  endStop : Option String
deriving DecidableEq

/-- One record of `breaks_data` in `add_breaks_to_report`. -/
structure BreakRec where
  dutyId : String
  duration : Int
  breakStart : String
  breakStop : String
deriving DecidableEq

/-- A row after Step 3: the Step-2 columns plus the three break columns
(`none` models the `NaN` cells of an unmatched left-join row). -/
structure Row3 where
  base : Row2
  duration : Option Int
  breakStart : Option String
  breakStop : Option String
deriving DecidableEq

/-! ## Time codec (`convert_time` / `timedelta_to_time`) -/

/-- Split a list of characters at every occurrence of `sep`
(Python `str.split(sep)`; always returns at least one chunk). -/
def splitOnChar (sep : Char) : List Char → List (List Char)
  | [] => [[]]
  | x :: xs =>
    match splitOnChar sep xs with
    | [] => if x = sep then [[], []] else [[x]]
    | y :: ys => if x = sep then [] :: y :: ys else (x :: y) :: ys

/-- Accumulating decimal reader: consumes digit characters, fails on any
non-digit. -/
def parseDigits (acc : Nat) : List Char → Option Nat
  | [] => some acc
  | c :: cs => if c.isDigit then parseDigits (acc * 10 + (c.toNat - 48)) cs else none

/-- Read a nonempty all-digit token as a natural number. -/
def parseNat (cs : List Char) : Option Nat :=
  match cs with
  | [] => none
  | _ :: _ => parseDigits 0 cs

/-- Python `int(text)`: optional sign followed by decimal digits. -/
def parseInt (cs : List Char) : Option Int :=
  match cs with
  | [] => none
  | c :: rest =>
    if c = '-' then (parseNat rest).map (fun n => -(n : Int))
    else if c = '+' then (parseNat rest).map (fun n => (n : Int))
    else (parseNat cs).map (fun n => (n : Int))

/-- `timedelta(days := d, hours := h, minutes := m)` as whole seconds.
Python normalizes the components to a day count plus a remainder in
`[0, 86400)` seconds — i.e. the floor of the total over 86400 — and raises
`OverflowError` (modelled `none`) when that normalized day count exceeds
999999999 in magnitude (`timedelta.max` / `timedelta.min`). -/
def timedeltaOf (d h m : Int) : Option Int :=
  if -999999999 ≤ (d * 86400 + h * 3600 + m * 60).fdiv 86400 ∧
      (d * 86400 + h * 3600 + m * 60).fdiv 86400 ≤ 999999999 then
    some (d * 86400 + h * 3600 + m * 60)
  else none

/-- The body of `convert_time`'s `try` block: split on `'.'` into exactly two
tokens, split the second on `':'` into exactly two integer tokens, and build
`timedelta(days, hours, minutes)` as whole seconds.  `none` models the thrown
exception — a failed split or integer conversion, or the constructor's
`OverflowError` beyond the `timedelta` range. -/
def convertTimeCore (s : String) : Option Int :=
  match splitOnChar '.' s.data with
  | [dTok, tTok] =>
    match parseInt dTok, splitOnChar ':' tTok with
    | some d, [hTok, mTok] =>
      match parseInt hTok, parseInt mTok with
      | some h, some m => timedeltaOf d h m
      | _, _ => none
    | _, _ => none
  | _ => none

/-- `convert_time` of `main.py`: parse `"<day>.<HH>:<MM>"`; on any failure
print a diagnostic and return `timedelta(0)`. -/
def convert_time (s : String) : Int :=
  (convertTimeCore s).getD 0

/-- Fuel-driven decimal writer (structural recursion so that the kernel can
evaluate it): prepends the digits of `n` to `acc`. -/
def natToDigitsAux : Nat → Nat → List Char → List Char
  | 0, _, acc => acc
  | fuel + 1, n, acc =>
    if n < 10 then Nat.digitChar n :: acc
    else natToDigitsAux fuel (n / 10) (Nat.digitChar (n % 10) :: acc)

/-- Decimal digits of a natural number, most significant first. -/
def natToDigits (n : Nat) : List Char :=
  natToDigitsAux (n + 1) n []

/-- Left-pad a token with `'0'` up to width `w` (Python `{:0w}`). -/
def padZeros (w : Nat) (cs : List Char) : List Char :=
  List.replicate (w - cs.length) '0' ++ cs

/-- Python `f"{n:02}"` for an integer: sign-aware zero padding to width 2. -/
def intPad2 (n : Int) : List Char :=
  if n < 0 then '-' :: padZeros 1 (natToDigits n.natAbs)
  else padZeros 2 (natToDigits n.toNat)

/-- `timedelta_to_time` of `main.py`: floor-divide total seconds into hours
and minutes (Python `divmod` floors) and render as `"HH:MM"`. -/
def timedelta_to_time (td : Int) : String :=
  String.mk (intPad2 (Int.fdiv td 3600) ++ ':' :: intPad2 (Int.fdiv (Int.fmod td 3600) 60))

/-! ## Step 1: `generate_duty_times_report` -/

/-- The join used by all three stages: every event of every vehicle whose
`duty_id` equals the given duty id, vehicles in input order, events within a
vehicle in input order. -/
def matchingEvents (vehicles : List Vehicle) (dId : String) : List VehicleEvent :=
  vehicles.flatMap (fun v => v.vehicle_events.filter (fun e => e.duty_id == dId))

/-- The sort key order of Step 1: ascending `vehicle_event_sequence`. -/
def seqLE (a b : VehicleEvent) : Prop :=
  a.vehicle_event_sequence ≤ b.vehicle_event_sequence

instance : DecidableRel seqLE :=
  fun a b => Int.decLe a.vehicle_event_sequence b.vehicle_event_sequence

/-- The body of Step 1's loop for one duty: skip the duty when no event
matches, otherwise sort the matches by sequence (stably, like Python
`sorted`) and read the start time of the first and the end time of the last,
defaulting missing time fields to `"0.00:00"`. -/
def dutyRow (vehicles : List Vehicle) (duty : Duty) : Option Row1 :=
  match List.insertionSort seqLE (matchingEvents vehicles duty.duty_id) with
  | [] => none
  | e :: rest =>
    some { dutyId := duty.duty_id
           startTime := timedelta_to_time (convert_time (e.start_time.getD "0.00:00"))
           endTime := timedelta_to_time (convert_time ((rest.getLastD e).end_time.getD "0.00:00")) }

/-- `generate_duty_times_report` of `main.py`. -/
def generate_duty_times_report (duties : List Duty) (vehicles : List Vehicle) : List Row1 :=
  duties.filterMap (dutyRow vehicles)

/-! ## Step 2: `add_stop_names_to_report` -/

/-- The `stop_map` dict built from the stops list (later duplicates win, as in
a Python dict comprehension). -/
def stopMapGet (stops : List Stop) (k : String) : Option String :=
  ((stops.filter (fun s => s.stop_id == k)).getLast?).map (fun s => s.stop_name)

/-- The stop-name lookup pattern used at every site of `main.py`:
`stop_map.get(event.get(field, 'Unknown'), 'Unknown')` — a missing id is
looked up under the key `"Unknown"`, and an unmatched key falls back to the
literal `"Unknown"`. -/
def lookupName (stops : List Stop) (oid : Option String) : String :=
  (stopMapGet stops (oid.getD "Unknown")).getD "Unknown"

/-- `add_stop_names_to_report` of `main.py`: for each row, re-join the duty's
events (no sort) and name the first event's origin and the last event's
destination; rows whose duty has no events keep both cells unwritten. -/
def add_stop_names_to_report (report : List Row1) (vehicles : List Vehicle)
    (stops : List Stop) : List Row2 :=
  report.map (fun r =>
    match matchingEvents vehicles r.dutyId with
    | [] => { base := r, startStop := none, endStop := none }
    | e :: rest =>
      { base := r
        startStop := some (lookupName stops e.origin_stop_id)
        endStop := some (lookupName stops (rest.getLastD e).destination_stop_id) })

/-! ## Step 3: `add_breaks_to_report` -/

/-- The loop body of the break scan for one consecutive pair `(a, b)`.
When the pair is type-matched, `b['start_time']` and `a['end_time']` are read
with bare indexing (absence raises `KeyError`, modelled `.error ()`); the
duration is `(parse(b.start) - parse(a.end)).total_seconds() / 60`, exact here
because every parsed duration is a multiple of 60 seconds; only when it
exceeds 15 is `a['start_time']` read (again bare) and a record emitted. -/
def pairBreak (stops : List Stop) (dId : String) (a b : VehicleEvent) :
    Except Unit (Option BreakRec) :=
  if a.vehicle_event_type = some "Break" ∧ b.vehicle_event_type = some "Break End" then
    match b.start_time, a.end_time with
    | some bs, some ae =>
      if (convert_time bs - convert_time ae) / 60 > 15 then
        match a.start_time with
        | some sa =>
          .ok (some { dutyId := dId
                      duration := (convert_time bs - convert_time ae) / 60
                      breakStart := timedelta_to_time (convert_time sa)
                      breakStop := lookupName stops a.origin_stop_id })
        | none => .error ()
      else .ok none
    | _, _ => .error ()
  else .ok none

/-- `for i in range(len(duty_events) - 1)`: scan consecutive pairs in order,
propagating the first `KeyError` and collecting emitted records in order. -/
def scanBreaks (stops : List Stop) (dId : String) : List VehicleEvent → Except Unit (List BreakRec)
  | a :: b :: rest =>
    match pairBreak stops dId a b with
    | .error e => .error e
    | .ok r =>
      match scanBreaks stops dId (b :: rest) with
      | .error e => .error e
      | .ok rs => .ok (match r with | some x => x :: rs | none => rs)
  | _ => .ok []

/-- `breaks_data`: the records of all report rows, in report-row order. -/
def collectBreaks (vehicles : List Vehicle) (stops : List Stop) :
    List Row2 → Except Unit (List BreakRec)
  | [] => .ok []
  | r :: rs =>
    match scanBreaks stops r.base.dutyId (matchingEvents vehicles r.base.dutyId) with
    | .error e => .error e
    | .ok bs =>
      match collectBreaks vehicles stops rs with
      | .error e => .error e
      | .ok more => .ok (bs ++ more)

/-- `pd.merge(report, breaks_df, on = Duty ID, how = left)`: each left row in
order, fanned out over the right rows with an equal Duty ID in their order;
a left row with no match keeps null break fields.  (The code's special branch
for an empty `breaks_df` only fixes the column schema and lands in the same
place: every row unmatched.) -/
def mergeBreaks (report : List Row2) (breaks : List BreakRec) : List Row3 :=
  report.flatMap (fun r =>
    match breaks.filter (fun b => b.dutyId == r.base.dutyId) with
    | [] => [{ base := r, duration := none, breakStart := none, breakStop := none }]
    | ms => ms.map (fun b =>
        { base := r, duration := some b.duration
          breakStart := some b.breakStart, breakStop := some b.breakStop }))

/-- `add_breaks_to_report` of `main.py` (the Duty ID column is guaranteed by
the row type). -/
def add_breaks_to_report (report : List Row2) (vehicles : List Vehicle)
    (stops : List Stop) : Except Unit (List Row3) :=
  match collectBreaks vehicles stops report with
  | .error e => .error e
  | .ok bs => .ok (mergeBreaks report bs)

/-! ## Claim-side text constructors (spec §8 round-trip property) -/

/-- The text `f"{d}.{h:02}:{m:02}"` of the spec's round-trip property. -/
def mkCompact (d h m : Nat) : String :=
  String.mk (natToDigits d ++ '.' :: padZeros 2 (natToDigits h) ++ ':' :: padZeros 2 (natToDigits m))

/-- The text `f"{hh:02}:{mm:02}"` the round-trip property expects back. -/
def mkHHMM (hh mm : Nat) : String :=
  String.mk (padZeros 2 (natToDigits hh) ++ ':' :: padZeros 2 (natToDigits mm))

/-! ## Lemmas about the decimal writer and reader -/

lemma natToDigitsAux_append (fuel : Nat) : ∀ n acc, natToDigitsAux fuel n acc = natToDigitsAux fuel n [] ++ acc := by
  induction fuel with
  | zero => intro n acc; simp [natToDigitsAux]
  | succ f ih =>
    intro n acc
    by_cases h : n < 10
    · simp [natToDigitsAux, h]
    · simp only [natToDigitsAux, if_neg h]
      rw [ih (n / 10) (Nat.digitChar (n % 10) :: acc), ih (n / 10) [Nat.digitChar (n % 10)]]
      simp

lemma natToDigitsAux_fuel (n : Nat) : ∀ fuel fuel' acc, n < fuel → n < fuel' → natToDigitsAux fuel n acc = natToDigitsAux fuel' n acc := by
  induction n using Nat.strong_induction_on with
  | _ n ih =>
    intro fuel fuel' acc hf hf'
    match fuel, fuel' with
    | f + 1, f' + 1 =>
      by_cases h : n < 10
      · simp [natToDigitsAux, h]
      · simp only [natToDigitsAux, if_neg h]
        have hlt : n / 10 < n := Nat.div_lt_self (by omega) (by omega)
        exact ih (n / 10) hlt f f' _ (by omega) (by omega)

lemma natToDigits_lt (n : Nat) (h : n < 10) : natToDigits n = [Nat.digitChar n] := by
  simp [natToDigits, natToDigitsAux, h]

lemma natToDigits_ge (n : Nat) (h : ¬ n < 10) :
    natToDigits n = natToDigits (n / 10) ++ [Nat.digitChar (n % 10)] := by
  have hlt : n / 10 < n := Nat.div_lt_self (by omega) (by omega)
  unfold natToDigits
  rw [show natToDigitsAux (n + 1) n [] = natToDigitsAux n (n / 10) [Nat.digitChar (n % 10)] by
        simp [natToDigitsAux, h]]
  rw [natToDigitsAux_append, natToDigitsAux_fuel (n / 10) n (n / 10 + 1) [] (by omega) (by omega)]

lemma natToDigits_ne_nil (n : Nat) : natToDigits n ≠ [] := by
  by_cases h : n < 10
  · rw [natToDigits_lt n h]; simp
  · rw [natToDigits_ge n h]; simp

lemma mem_natToDigits (n : Nat) : ∀ c ∈ natToDigits n, ∃ d, d < 10 ∧ c = Nat.digitChar d := by
  induction n using Nat.strong_induction_on with
  | _ n ih =>
    intro c hc
    by_cases h : n < 10
    · rw [natToDigits_lt n h] at hc
      simp at hc
      exact ⟨n, h, hc⟩
    · rw [natToDigits_ge n h] at hc
      have hlt : n / 10 < n := Nat.div_lt_self (by omega) (by omega)
      rcases List.mem_append.mp hc with h1 | h2
      · exact ih (n / 10) hlt c h1
      · simp at h2
        exact ⟨n % 10, Nat.mod_lt n (by omega), h2⟩

lemma digitChar_spec (d : Nat) (h : d < 10) :
    (Nat.digitChar d).isDigit = true ∧ Nat.digitChar d ≠ '.' ∧ Nat.digitChar d ≠ ':' ∧
      Nat.digitChar d ≠ '-' ∧ Nat.digitChar d ≠ '+' ∧ (Nat.digitChar d).toNat = 48 + d := by
  interval_cases d <;> exact ⟨by decide, by decide, by decide, by decide, by decide, by decide⟩

lemma parseDigits_append (xs : List Char) : ∀ acc ys,
    parseDigits acc (xs ++ ys) = (parseDigits acc xs).bind (fun a => parseDigits a ys) := by
  induction xs with
  | nil => intro acc ys; simp [parseDigits]
  | cons c cs ih =>
    intro acc ys
    by_cases h : c.isDigit
    · simp [parseDigits, h, ih]
    · simp [parseDigits, h]

lemma parseDigits_natToDigits (n : Nat) : ∀ acc,
    parseDigits acc (natToDigits n) = some (acc * 10 ^ (natToDigits n).length + n) := by
  induction n using Nat.strong_induction_on with
  | _ n ih =>
    intro acc
    by_cases h : n < 10
    · rw [natToDigits_lt n h]
      obtain ⟨hd, _, _, _, _, hv⟩ := digitChar_spec n h
      simp only [parseDigits, hd, if_true, List.length_singleton, pow_one, Option.some.injEq]
      omega
    · have hlt : n / 10 < n := Nat.div_lt_self (by omega) (by omega)
      obtain ⟨hd, _, _, _, _, hv⟩ := digitChar_spec (n % 10) (Nat.mod_lt n (by omega))
      rw [natToDigits_ge n h, parseDigits_append, ih (n / 10) hlt acc]
      simp only [Option.some_bind, parseDigits, hd, if_true, List.length_append,
        List.length_singleton, Option.some.injEq]
      have hdm := Nat.div_add_mod n 10
      have hB : acc * 10 ^ ((natToDigits (n / 10)).length + 1)
          = acc * 10 ^ (natToDigits (n / 10)).length * 10 := by
        rw [pow_succ, mul_assoc]
      rw [hB]
      omega

lemma parseNat_eq_parseDigits (l : List Char) (h : l ≠ []) : parseNat l = parseDigits 0 l := by
  cases l with
  | nil => exact absurd rfl h
  | cons c cs => rfl

lemma parseNat_natToDigits (n : Nat) : parseNat (natToDigits n) = some n := by
  rw [parseNat_eq_parseDigits _ (natToDigits_ne_nil n), parseDigits_natToDigits n 0]
  simp

lemma parseDigits_replicate_zero (k : Nat) : ∀ ds, parseDigits 0 (List.replicate k '0' ++ ds) = parseDigits 0 ds := by
  induction k with
  | zero => intro ds; simp
  | succ j ih =>
    intro ds
    rw [List.replicate_succ, List.cons_append]
    show parseDigits 0 ('0' :: (List.replicate j '0' ++ ds)) = _
    rw [show parseDigits 0 ('0' :: (List.replicate j '0' ++ ds))
          = parseDigits (0 * 10 + ('0'.toNat - 48)) (List.replicate j '0' ++ ds) by
        simp [parseDigits]]
    simpa using ih ds

lemma padZeros_digits_ne_nil (w n : Nat) : padZeros w (natToDigits n) ≠ [] := by
  intro hc
  exact natToDigits_ne_nil n (List.append_eq_nil.mp hc).2

lemma parseNat_padZeros (w n : Nat) : parseNat (padZeros w (natToDigits n)) = some n := by
  rw [parseNat_eq_parseDigits _ (padZeros_digits_ne_nil w n)]
  unfold padZeros
  rw [parseDigits_replicate_zero, ← parseNat_eq_parseDigits _ (natToDigits_ne_nil n),
    parseNat_natToDigits]

lemma mem_padZeros_digits (w n : Nat) : ∀ c ∈ padZeros w (natToDigits n), ∃ d, d < 10 ∧ c = Nat.digitChar d := by
  intro c hc
  rcases List.mem_append.mp hc with h1 | h2
  · exact ⟨0, by omega, by simpa using List.eq_of_mem_replicate h1⟩
  · exact mem_natToDigits n c h2

lemma parseInt_cons (c : Char) (cs : List Char) (h1 : c ≠ '-') (h2 : c ≠ '+') :
    parseInt (c :: cs) = (parseNat (c :: cs)).map (fun n => (n : Int)) := by
  simp [parseInt, h1, h2]

lemma parseInt_of_digits (l : List Char) (hne : l ≠ [])
    (hd : ∀ c ∈ l, ∃ d, d < 10 ∧ c = Nat.digitChar d) :
    parseInt l = (parseNat l).map (fun n => (n : Int)) := by
  cases l with
  | nil => exact absurd rfl hne
  | cons c cs =>
    obtain ⟨d, hd10, hcd⟩ := hd c (by simp)
    obtain ⟨_, _, _, hm, hp, _⟩ := digitChar_spec d hd10
    exact parseInt_cons c cs (hcd ▸ hm) (hcd ▸ hp)

lemma parseInt_natToDigits (n : Nat) : parseInt (natToDigits n) = some (n : Int) := by
  rw [parseInt_of_digits _ (natToDigits_ne_nil n) (mem_natToDigits n), parseNat_natToDigits]
  rfl

lemma parseInt_padZeros (w n : Nat) : parseInt (padZeros w (natToDigits n)) = some (n : Int) := by
  rw [parseInt_of_digits _ (padZeros_digits_ne_nil w n) (mem_padZeros_digits w n),
    parseNat_padZeros]
  rfl

/-! ## Lemmas about splitting -/

lemma splitOnChar_ne_nil (sep : Char) (l : List Char) : splitOnChar sep l ≠ [] := by
  cases l with
  | nil => simp [splitOnChar]
  | cons x xs =>
    simp only [splitOnChar]
    cases hs : splitOnChar sep xs with
    | nil => by_cases hx : x = sep <;> simp [hx]
    | cons y ys => by_cases hx : x = sep <;> simp [hx]

lemma splitOnChar_of_not_mem (sep : Char) (l : List Char) (h : ∀ c ∈ l, c ≠ sep) :
    splitOnChar sep l = [l] := by
  induction l with
  | nil => rfl
  | cons x xs ih =>
    have hx : x ≠ sep := h x (by simp)
    have hxs : splitOnChar sep xs = [xs] := ih (fun c hc => h c (by simp [hc]))
    simp [splitOnChar, hxs, hx]

lemma splitOnChar_append (sep : Char) (l₁ l₂ : List Char) (h : ∀ c ∈ l₁, c ≠ sep) :
    splitOnChar sep (l₁ ++ sep :: l₂) = l₁ :: splitOnChar sep l₂ := by
  induction l₁ with
  | nil =>
    simp only [List.nil_append, splitOnChar]
    cases hs : splitOnChar sep l₂ with
    | nil => exact absurd hs (splitOnChar_ne_nil sep l₂)
    | cons y ys => simp
  | cons x xs ih =>
    have hx : x ≠ sep := h x (by simp)
    have hxs := ih (fun c hc => h c (by simp [hc]))
    simp only [List.cons_append, splitOnChar, List.append_eq, hxs, if_neg hx]

/-! ## The compact-time round trip -/

lemma mkCompact_parse (d h m : Nat) :
    convertTimeCore (mkCompact d h m) = timedeltaOf (d : Int) (h : Int) (m : Int) := by
  have hdotD : ∀ c ∈ natToDigits d, c ≠ '.' := by
    intro c hc
    obtain ⟨k, hk, rfl⟩ := mem_natToDigits d c hc
    exact (digitChar_spec k hk).2.1
  have hdotH : ∀ c ∈ padZeros 2 (natToDigits h), c ≠ '.' := by
    intro c hc
    obtain ⟨k, hk, rfl⟩ := mem_padZeros_digits 2 h c hc
    exact (digitChar_spec k hk).2.1
  have hdotM : ∀ c ∈ padZeros 2 (natToDigits m), c ≠ '.' := by
    intro c hc
    obtain ⟨k, hk, rfl⟩ := mem_padZeros_digits 2 m c hc
    exact (digitChar_spec k hk).2.1
  have hcolH : ∀ c ∈ padZeros 2 (natToDigits h), c ≠ ':' := by
    intro c hc
    obtain ⟨k, hk, rfl⟩ := mem_padZeros_digits 2 h c hc
    exact (digitChar_spec k hk).2.2.1
  have hdata : (mkCompact d h m).data
      = natToDigits d ++ '.' :: (padZeros 2 (natToDigits h) ++ ':' :: padZeros 2 (natToDigits m)) := by
    simp [mkCompact]
  have hsplit1 : splitOnChar '.' (mkCompact d h m).data
      = [natToDigits d, padZeros 2 (natToDigits h) ++ ':' :: padZeros 2 (natToDigits m)] := by
    rw [hdata, splitOnChar_append '.' _ _ hdotD, splitOnChar_of_not_mem]
    intro c hc
    rcases List.mem_append.mp hc with h1 | h2
    · exact hdotH c h1
    · rcases List.mem_cons.mp h2 with rfl | h3
      · decide
      · exact hdotM c h3
  have hsplit2 : splitOnChar ':' (padZeros 2 (natToDigits h) ++ ':' :: padZeros 2 (natToDigits m))
      = [padZeros 2 (natToDigits h), padZeros 2 (natToDigits m)] := by
    rw [splitOnChar_append ':' _ _ hcolH, splitOnChar_of_not_mem]
    intro c hc
    obtain ⟨k, hk, rfl⟩ := mem_padZeros_digits 2 m c hc
    exact (digitChar_spec k hk).2.2.1
  simp only [convertTimeCore, hsplit1, parseInt_natToDigits, hsplit2, parseInt_padZeros]

lemma intPad2_coe (k : Nat) : intPad2 (k : Int) = padZeros 2 (natToDigits k) := by
  have hk : ¬ ((k : Int) < 0) := by exact_mod_cast Int.not_lt.mpr (Int.natCast_nonneg k)
  simp [intPad2, hk, Int.toNat_ofNat]

lemma timedelta_to_time_coe (N : Nat) :
    timedelta_to_time (N : Int) = String.mk (padZeros 2 (natToDigits (N / 3600)) ++ ':' :: padZeros 2 (natToDigits (N % 3600 / 60))) := by
  have h1 : Int.fdiv (N : Int) 3600 = ((N / 3600 : Nat) : Int) := by
    rw [Int.fdiv_eq_ediv _ (by norm_num)]
    omega
  have h2 : Int.fmod (N : Int) 3600 = ((N % 3600 : Nat) : Int) := by
    rw [Int.fmod_eq_emod _ (by norm_num)]
    omega
  have h3 : Int.fdiv ((N % 3600 : Nat) : Int) 60 = ((N % 3600 / 60 : Nat) : Int) := by
    rw [Int.fdiv_eq_ediv _ (by norm_num)]
    omega
  rw [timedelta_to_time, h1, h2, h3, intPad2_coe, intPad2_coe]

lemma timedeltaOf_coe (d h m : Nat)
    (hrange : (d * 86400 + h * 3600 + m * 60) / 86400 ≤ 999999999) :
    timedeltaOf (d : Int) (h : Int) (m : Int)
      = some ((d * 86400 + h * 3600 + m * 60 : Nat) : Int) := by
  have hT : (d : Int) * 86400 + (h : Int) * 3600 + (m : Int) * 60
      = ((d * 86400 + h * 3600 + m * 60 : Nat) : Int) := by push_cast; ring
  have hfd : ((d * 86400 + h * 3600 + m * 60 : Nat) : Int).fdiv 86400
      = (((d * 86400 + h * 3600 + m * 60) / 86400 : Nat) : Int) := by
    rw [Int.fdiv_eq_ediv _ (by norm_num)]
    omega
  have hc : -999999999 ≤ (((d * 86400 + h * 3600 + m * 60) / 86400 : Nat) : Int) ∧
      (((d * 86400 + h * 3600 + m * 60) / 86400 : Nat) : Int) ≤ 999999999 := by
    constructor <;> omega
  rw [timedeltaOf, hT, hfd, if_pos hc]

/-- C5 counterexample: at `d = 10^9` (text `"1000000000.00:00"`) the claimed
output is `"24000000000:00"`, but the constructed `timedelta` overflows
Python's ±999999999-day bound; the `except` swallows the `OverflowError`,
the parse returns the zero duration, and the program formats `"00:00"`. -/
theorem c5_counterexample :
    convertTimeCore (mkCompact 1000000000 0 0) = none ∧
      convert_time (mkCompact 1000000000 0 0) = 0 ∧
      timedelta_to_time (convert_time (mkCompact 1000000000 0 0)) = "00:00" ∧
      mkHHMM (1000000000 * 24 + 0) 0 = "24000000000:00" ∧
      ("00:00" : String) ≠ "24000000000:00" :=
  ⟨by decide, by decide, by decide, by decide, by decide⟩

/-- C5 (amended): for all non-negative integers `d`, `h` and minutes
`m ≤ 59` whose folded duration stays within the `timedelta` range — the
normalized day count `(d*86400 + h*3600 + m*60) / 86400` is at most
999999999 — formatting the parse of the text `"<d>.<h:02>:<m:02>"` yields
exactly the text `"<d*24+h:02>:<m:02>"`: the day offset folds into unbounded
total hours; beyond that range the constructor overflows and the parse
returns the zero duration instead. -/
theorem c5_format_parse_roundtrip (d h m : Nat) (hm : m ≤ 59)
    (hrange : (d * 86400 + h * 3600 + m * 60) / 86400 ≤ 999999999) :
    timedelta_to_time (convert_time (mkCompact d h m)) = mkHHMM (d * 24 + h) m := by
  rw [convert_time, mkCompact_parse, timedeltaOf_coe d h m hrange, Option.getD_some,
    timedelta_to_time_coe]
  have hdiv : (d * 86400 + h * 3600 + m * 60) / 3600 = d * 24 + h := by omega
  have hmod : (d * 86400 + h * 3600 + m * 60) % 3600 / 60 = m := by omega
  rw [hdiv, hmod, mkHHMM]

/-- Witness for C5 (amended) at `d = 1`, `h = 2`, `m = 3`:
`format (parse "1.02:03") = "26:03"`. -/
theorem c5_format_parse_roundtrip_witness :
    (3 : Nat) ≤ 59 ∧ (1 * 86400 + 2 * 3600 + 3 * 60) / 86400 ≤ 999999999 ∧
      timedelta_to_time (convert_time (mkCompact 1 2 3)) = "26:03" := by
  refine ⟨by norm_num, by norm_num, ?_⟩
  have h := c5_format_parse_roundtrip 1 2 3 (by norm_num) (by norm_num)
  simpa using h

/-- C6: on every string the compact-time parse fails on (wrong separator
count or a non-integer component, i.e. any input on which the translated
`try`-block body `convertTimeCore` yields no value), `convert_time` returns
the zero duration; it is a total function, so no exception reaches the
caller. -/
theorem c6_malformed_parse_zero (s : String) (h : convertTimeCore s = none) :
    convert_time s = 0 := by
  rw [convert_time, h, Option.getD_none]

/-- Witness for C6 on the spec's two malformed examples, `"abc"` (no `'.'`
separator) and `"1:2:3"` (no `'.'` separator, three `':'` components). -/
theorem c6_malformed_parse_zero_witness :
    convertTimeCore "abc" = none ∧ convert_time "abc" = 0 ∧
      convertTimeCore "1:2:3" = none ∧ convert_time "1:2:3" = 0 :=
  ⟨by decide, c6_malformed_parse_zero "abc" (by decide),
    by decide, c6_malformed_parse_zero "1:2:3" (by decide)⟩

/-! ## Claims about the Duty Window Extractor -/

/-- C1: the Step-1 report has exactly one row per duty with at least one
matching vehicle event, no row for a duty with none, and the rows keep the
input duty order: its Duty ID column equals the duty-id column of the input
duties filtered to those with a nonempty event match. -/
theorem c1_one_row_per_matched_duty (duties : List Duty) (vehicles : List Vehicle) :
    (generate_duty_times_report duties vehicles).map (fun r => r.dutyId)
      = (duties.filter (fun duty => !(matchingEvents vehicles duty.duty_id).isEmpty)).map
          (fun duty => duty.duty_id) := by
  induction duties with
  | nil => rfl
  | cons d ds ih =>
    cases hms : matchingEvents vehicles d.duty_id with
    | nil =>
      have hrow : dutyRow vehicles d = none := by
        simp [dutyRow, hms, List.insertionSort]
      simpa [generate_duty_times_report, List.filterMap_cons, hrow, List.filter_cons, hms]
        using ih
    | cons x xs =>
      have hne : List.insertionSort seqLE (matchingEvents vehicles d.duty_id) ≠ [] := by
        intro hcon
        have hlen := (List.perm_insertionSort seqLE (matchingEvents vehicles d.duty_id)).length_eq
        rw [hcon, hms] at hlen
        simp at hlen
      obtain ⟨e, rest, hs⟩ := List.exists_cons_of_ne_nil hne
      have hrow : dutyRow vehicles d
          = some { dutyId := d.duty_id
                   startTime := timedelta_to_time (convert_time (e.start_time.getD "0.00:00"))
                   endTime := timedelta_to_time (convert_time ((rest.getLastD e).end_time.getD "0.00:00")) } := by
        rw [dutyRow, hs]
      simpa [generate_duty_times_report, List.filterMap_cons, hrow, List.filter_cons, hms]
        using ih

/-- C7 counterexample: a duty with exactly one matching event whose
`start_time` is `"0.08:00"` and `end_time` is `"0.09:00"` gets the row
`("D1", "08:00", "09:00")` — Start time and End time differ, because even for
a single event the start is read from `start_time` and the end from
`end_time`. -/
theorem c7_counterexample :
    matchingEvents [⟨[⟨"D1", 1, some "Trip", some "0.08:00", some "0.09:00", none, none⟩]⟩] "D1"
        = [⟨"D1", 1, some "Trip", some "0.08:00", some "0.09:00", none, none⟩] ∧
      generate_duty_times_report [⟨"D1"⟩]
          [⟨[⟨"D1", 1, some "Trip", some "0.08:00", some "0.09:00", none, none⟩]⟩]
        = [⟨"D1", "08:00", "09:00"⟩] ∧
      ("08:00" : String) ≠ "09:00" :=
  ⟨by decide, by decide, by decide⟩

/-- C7 (amended): for a duty with exactly one matching event, both Start time
and End time come from that single event — Start time from its `start_time`
and End time from its `end_time` (each defaulted to `"0.00:00"`) — so the
row's Start time equals its End time exactly when those two formatted fields
agree. -/
theorem c7_amended_single_event (duties : List Duty) (vehicles : List Vehicle)
    (dId : String) (e : VehicleEvent)
    (hone : matchingEvents vehicles dId = [e])
    (heq : timedelta_to_time (convert_time (e.start_time.getD "0.00:00"))
         = timedelta_to_time (convert_time (e.end_time.getD "0.00:00"))) :
    ∀ r ∈ generate_duty_times_report duties vehicles, r.dutyId = dId → r.startTime = r.endTime := by
  intro r hr hid
  obtain ⟨duty, hduty, hrow⟩ := List.mem_filterMap.mp hr
  rw [dutyRow] at hrow
  cases hs : List.insertionSort seqLE (matchingEvents vehicles duty.duty_id) with
  | nil => rw [hs] at hrow; exact absurd hrow (by simp)
  | cons e' rest =>
    rw [hs] at hrow
    have hidd : duty.duty_id = dId := by
      have := congrArg Row1.dutyId (Option.some.inj hrow)
      simpa [hid] using this
    have hsing : matchingEvents vehicles duty.duty_id = [e] := by rw [hidd, hone]
    have hs' : List.insertionSort seqLE (matchingEvents vehicles duty.duty_id) = [e] := by
      rw [hsing]
      simp [List.insertionSort, List.orderedInsert]
    rw [hs'] at hs
    obtain ⟨rfl, rfl⟩ : e' = e ∧ rest = [] := by
      constructor <;> [exact (List.cons.inj hs).1.symm; exact (List.cons.inj hs).2.symm]
    obtain rfl := Option.some.inj hrow
    simpa [List.getLastD] using heq

/-- Witness for C7 (amended): one matching event with equal formatted start
and end (`"0.08:00"` both) yields a row with Start time = End time. -/
theorem c7_amended_single_event_witness :
    (⟨"D1", "08:00", "08:00"⟩ : Row1).startTime = (⟨"D1", "08:00", "08:00"⟩ : Row1).endTime :=
  c7_amended_single_event [⟨"D1"⟩]
    [⟨[⟨"D1", 1, some "Trip", some "0.08:00", some "0.08:00", none, none⟩]⟩] "D1"
    ⟨"D1", 1, some "Trip", some "0.08:00", some "0.08:00", none, none⟩
    (by decide) (by decide) ⟨"D1", "08:00", "08:00"⟩ (by decide) rfl

/-! ## Claims about the Break Detector -/

lemma mem_matchingEvents (vehicles : List Vehicle) (dId : String) (e : VehicleEvent)
    (he : e ∈ matchingEvents vehicles dId) :
    (∃ v ∈ vehicles, e ∈ v.vehicle_events) ∧ e.duty_id = dId := by
  simp only [matchingEvents, List.mem_flatMap] at he
  obtain ⟨v, hv, he'⟩ := he
  have hf := List.mem_filter.mp he'
  exact ⟨⟨v, hv, hf.1⟩, by simpa using hf.2⟩

/-- C2: for any duty's unsorted matched-event list, the scan emits a break
record at index `i` — i.e. `pairBreak`, which `scanBreaks` applies to the
consecutive pair `(events[i], events[i+1])`, yields a record — iff
`events[i]` is typed `"Break"`, `events[i+1]` is typed `"Break End"`, and
the parsed gap `parse(events[i+1].start_time) - parse(events[i].end_time)`
in minutes is strictly greater than 15; a 15-minute pair yields no record.
(The time fields involved are assumed present; their absence is the crash
behaviour treated in the bare-access claim.) -/
theorem c2_break_pair_iff (stops : List Stop) (dId : String) (es : List VehicleEvent)
    (i : Nat) (h : i + 1 < es.length) (a b : VehicleEvent)
    (_hia : es.get ⟨i, Nat.lt_of_succ_lt h⟩ = a) (_hib : es.get ⟨i + 1, h⟩ = b)
    (hsa : a.start_time.isSome = true) (hea : a.end_time.isSome = true)
    (hsb : b.start_time.isSome = true) :
    (∃ r, pairBreak stops dId a b = .ok (some r)) ↔
      (a.vehicle_event_type = some "Break" ∧ b.vehicle_event_type = some "Break End" ∧
        (convert_time (b.start_time.getD "") - convert_time (a.end_time.getD "")) / 60 > 15) := by
  obtain ⟨sa, hsa'⟩ := Option.isSome_iff_exists.mp hsa
  obtain ⟨ea, hea'⟩ := Option.isSome_iff_exists.mp hea
  obtain ⟨sb, hsb'⟩ := Option.isSome_iff_exists.mp hsb
  by_cases hty : a.vehicle_event_type = some "Break" ∧ b.vehicle_event_type = some "Break End"
  · by_cases hdur : (convert_time sb - convert_time ea) / 60 > 15
    · constructor
      · intro _
        exact ⟨hty.1, hty.2, by simpa [hsb', hea'] using hdur⟩
      · intro _
        refine ⟨⟨dId, (convert_time sb - convert_time ea) / 60,
          timedelta_to_time (convert_time sa), lookupName stops a.origin_stop_id⟩, ?_⟩
        simp [pairBreak, hty, hsb', hea', hsa', hdur]
    · constructor
      · rintro ⟨r, hr⟩
        simp [pairBreak, hty, hsb', hea', hdur] at hr
      · rintro ⟨_, _, hdur'⟩
        rw [hsb', hea'] at hdur'
        simp at hdur'
        exact absurd hdur' hdur
  · constructor
    · rintro ⟨r, hr⟩
      simp [pairBreak, hty] at hr
    · rintro ⟨h1, h2, _⟩
      exact absurd ⟨h1, h2⟩ hty

/-- Witness for C2: a `(Break, Break End)` pair 20 minutes apart at index 0
of a two-event list produces a record. -/
theorem c2_break_pair_iff_witness :
    ∃ r, pairBreak [] "D1" ⟨"D1", 1, some "Break", some "0.10:20", some "0.10:00", none, none⟩
      ⟨"D1", 2, some "Break End", some "0.10:20", none, none, none⟩ = .ok (some r) :=
  (c2_break_pair_iff [] "D1"
    [⟨"D1", 1, some "Break", some "0.10:20", some "0.10:00", none, none⟩,
     ⟨"D1", 2, some "Break End", some "0.10:20", none, none, none⟩]
    0 (by decide) _ _ rfl rfl (by decide) (by decide) (by decide)).mpr
    ⟨rfl, rfl, by decide⟩

/-- C8 counterexample: on exactly the events of the claim —
`{type: Break, end_time: "0.10:00"}` then `{type: Break End, start_time:
"0.10:20"}`, the first event having no `start_time` — the Break Detector
raises an uncaught key error (the emitted row needs
`events[0]['start_time']`), so no row with duration 20.0 is produced; the
duration itself would indeed be 20 minutes. -/
theorem c8_counterexample :
    (convert_time "0.10:20" - convert_time "0.10:00") / 60 = 20 ∧
      add_breaks_to_report [⟨⟨"D1", "08:00", "09:00"⟩, none, none⟩]
        [⟨[⟨"D1", 1, some "Break", none, some "0.10:00", none, none⟩,
           ⟨"D1", 2, some "Break End", some "0.10:20", none, none, none⟩]⟩] []
        = .error () :=
  ⟨by decide, rfl⟩

/-- C8 (amended): with the first event additionally carrying
`start_time = "0.10:20"`, the Break Detector computes a 20-minute duration,
which exceeds 15, and emits exactly one row with break duration 20 (minutes)
and break start time `"10:20"` (read from the first event's `start_time`). -/
theorem c8_amended_break_example :
    (convert_time "0.10:20" - convert_time "0.10:00") / 60 = 20 ∧
      add_breaks_to_report [⟨⟨"D1", "08:00", "09:00"⟩, none, none⟩]
        [⟨[⟨"D1", 1, some "Break", some "0.10:20", some "0.10:00", none, none⟩,
           ⟨"D1", 2, some "Break End", some "0.10:20", none, none, none⟩]⟩] []
        = .ok [⟨⟨⟨"D1", "08:00", "09:00"⟩, none, none⟩, some 20, some "10:20", some "Unknown"⟩] :=
  ⟨by decide, rfl⟩

/-- C10 counterexample: a type-matched `(Break, Break End)` pair whose first
event has no `start_time` does NOT always crash — when the computed duration
(here 5 minutes) fails the `> 15` check, `start_time` is never read and the
scan returns cleanly with no record, refuting "if any of these fields is
absent ... an uncaught key-lookup error propagates". -/
theorem c10_counterexample :
    (⟨"D1", 1, some "Break", none, some "0.10:00", none, none⟩ : VehicleEvent).vehicle_event_type
        = some "Break" ∧
      (⟨"D1", 2, some "Break End", some "0.10:05", none, none, none⟩ : VehicleEvent).vehicle_event_type
        = some "Break End" ∧
      (⟨"D1", 1, some "Break", none, some "0.10:00", none, none⟩ : VehicleEvent).start_time = none ∧
      pairBreak [] "D1" ⟨"D1", 1, some "Break", none, some "0.10:00", none, none⟩
        ⟨"D1", 2, some "Break End", some "0.10:05", none, none, none⟩ = .ok none :=
  ⟨rfl, rfl, rfl, rfl⟩

/-- C10 (amended): on a type-matched `(Break, Break End)` pair the fields
`events[i+1].start_time` and `events[i].end_time` are read with no default —
absence of either raises an uncaught key error; `events[i].start_time` is
also read bare but only after the duration check passes, so its absence
raises exactly when the duration exceeds 15 minutes and is harmless
otherwise; the Duty Window Extractor, in contrast, defaults missing times to
`"0.00:00"` (its rows read `"00:00"` even when every matched event lacks
both time fields). -/
theorem c10_amended_bare_access (stops : List Stop) (dId : String) (a b : VehicleEvent)
    (hta : a.vehicle_event_type = some "Break") (htb : b.vehicle_event_type = some "Break End") :
    ((b.start_time = none ∨ a.end_time = none) → pairBreak stops dId a b = .error ()) ∧
      (∀ sb ea, b.start_time = some sb → a.end_time = some ea → a.start_time = none →
        ((convert_time sb - convert_time ea) / 60 > 15 → pairBreak stops dId a b = .error ()) ∧
        (¬ (convert_time sb - convert_time ea) / 60 > 15 → pairBreak stops dId a b = .ok none)) ∧
      (∀ (duties : List Duty) (vehicles : List Vehicle),
        (∀ v ∈ vehicles, ∀ e ∈ v.vehicle_events, e.start_time = none ∧ e.end_time = none) →
        ∀ r ∈ generate_duty_times_report duties vehicles,
          r.startTime = timedelta_to_time (convert_time "0.00:00") ∧
            r.endTime = timedelta_to_time (convert_time "0.00:00")) := by
  refine ⟨?_, ?_, ?_⟩
  · rintro (hb | ha)
    · rcases hae : a.end_time with _ | ea <;> simp [pairBreak, hta, htb, hb, hae]
    · rcases hbs : b.start_time with _ | sb <;> simp [pairBreak, hta, htb, ha, hbs]
  · intro sb ea hsb hea hsa
    constructor
    · intro hdur
      simp [pairBreak, hta, htb, hsb, hea, hsa, hdur]
    · intro hdur
      simp [pairBreak, hta, htb, hsb, hea, hdur]
  · intro duties vehicles hall r hr
    obtain ⟨duty, _, hrow⟩ := List.mem_filterMap.mp hr
    rw [dutyRow] at hrow
    cases hs : List.insertionSort seqLE (matchingEvents vehicles duty.duty_id) with
    | nil => rw [hs] at hrow; exact absurd hrow (by simp)
    | cons e rest =>
      rw [hs] at hrow
      have hmem : ∀ x ∈ e :: rest, x.start_time = none ∧ x.end_time = none := by
        intro x hx
        have hx' : x ∈ matchingEvents vehicles duty.duty_id :=
          (List.perm_insertionSort seqLE (matchingEvents vehicles duty.duty_id)).mem_iff.mp
            (hs ▸ hx)
        obtain ⟨⟨v, hv, hev⟩, _⟩ := mem_matchingEvents vehicles duty.duty_id x hx'
        exact hall v hv x hev
      have hse : e.start_time = none := (hmem e (by simp)).1
      have hle : (rest.getLastD e).end_time = none :=
        (hmem (rest.getLastD e) (List.getLastD_mem_cons rest e)).2
      obtain rfl := Option.some.inj hrow
      simp only [List.getLastD_eq_getLast?] at hle
      exact ⟨by simp [hse], by simp [hle]⟩

/-- Witness for C10 (amended): a matched pair whose second event lacks
`start_time` crashes the scan. -/
theorem c10_amended_bare_access_witness :
    pairBreak [] "D1" ⟨"D1", 1, some "Break", some "0.10:20", some "0.10:00", none, none⟩
      ⟨"D1", 2, some "Break End", none, none, none, none⟩ = .error () :=
  (c10_amended_bare_access [] "D1" _ _ rfl rfl).1 (Or.inl rfl)

/-! ## Claims about the Stop Name Annotator -/

lemma getLast?_cons_getLastD (e : VehicleEvent) (rest : List VehicleEvent) :
    (e :: rest).getLast? = some (rest.getLastD e) := by
  rw [List.getLast?_cons, List.getLastD_eq_getLast?]

/-- C4: the Stop Name Annotator (given its Duty ID column, which the row type
guarantees) keeps the row count and order and only adds the two stop-name
cells, and for each row it takes the first and the last event of the duty's
matched events in raw join order — vehicles in input order, events within a
vehicle in input order, no sort by `vehicle_event_sequence` — naming the
first event's origin and the last event's destination. -/
theorem c4_annotator_shape (report : List Row1) (vehicles : List Vehicle) (stops : List Stop) :
    (add_stop_names_to_report report vehicles stops).length = report.length ∧
      add_stop_names_to_report report vehicles stops
        = report.map (fun r =>
            { base := r
              startStop := (matchingEvents vehicles r.dutyId).head?.map
                (fun e => lookupName stops e.origin_stop_id)
              endStop := (matchingEvents vehicles r.dutyId).getLast?.map
                (fun e => lookupName stops e.destination_stop_id) }) := by
  constructor
  · simp [add_stop_names_to_report]
  · rw [add_stop_names_to_report]
    apply List.map_congr_left
    intro r _
    cases hms : matchingEvents vehicles r.dutyId with
    | nil => simp
    | cons e rest => rw [getLast?_cons_getLastD]; rfl

/-- C9 counterexample: an event with an absent `origin_stop_id` is looked up
under the default key `"Unknown"`, so when the stops collection contains a
stop whose `stop_id` is literally `"Unknown"`, the reported name is that
stop's name (`"Somewhere"`), not the literal `"Unknown"`. -/
theorem c9_counterexample :
    (⟨"D1", 1, none, none, none, none, none⟩ : VehicleEvent).origin_stop_id = none ∧
      add_stop_names_to_report [⟨"D1", "08:00", "08:00"⟩]
          [⟨[⟨"D1", 1, none, none, none, none, none⟩]⟩] [⟨"Unknown", "Somewhere"⟩]
        = [⟨⟨"D1", "08:00", "08:00"⟩, some "Somewhere", some "Somewhere"⟩] ∧
      ("Somewhere" : String) ≠ "Unknown" :=
  ⟨rfl, by decide, by decide⟩

/-- C9 (amended): provided no stop's `stop_id` is the literal `"Unknown"`,
every stop-name lookup on an absent or unmapped id — the single access
pattern `lookupName`, used for the start stop, the end stop and the break
stop alike — yields the literal `"Unknown"` and never fails.  (Without that
proviso an absent id, defaulted to the key `"Unknown"`, can hit a stop that
happens to carry that id.) -/
theorem c9_amended_unknown (stops : List Stop) (oid : Option String)
    (hu : ∀ s ∈ stops, s.stop_id ≠ "Unknown")
    (hmiss : oid = none ∨ ∀ s ∈ stops, some s.stop_id ≠ oid) :
    lookupName stops oid = "Unknown" := by
  have hfilter : stops.filter (fun s => s.stop_id == oid.getD "Unknown") = [] := by
    rw [List.filter_eq_nil_iff]
    intro s hsmem
    cases oid with
    | none => simpa using hu s hsmem
    | some k =>
      have hnm : ∀ s ∈ stops, some s.stop_id ≠ some k := by
        rcases hmiss with hcon | h
        · exact absurd hcon (by simp)
        · exact h
      have := hnm s hsmem
      simp only [Option.getD_some]
      simpa using this
  rw [lookupName, stopMapGet, hfilter]
  rfl

/-- Witness for C9 (amended): with stops `[("S1", "Alpha")]`, an absent
origin id reports `"Unknown"`. -/
theorem c9_amended_unknown_witness :
    lookupName [⟨"S1", "Alpha"⟩] none = "Unknown" :=
  c9_amended_unknown [⟨"S1", "Alpha"⟩] none (by decide) (Or.inl rfl)

/-! ## Claims about the merge step -/

lemma mem_mergeBreaks_base (report : List Row2) (breaks : List BreakRec) (o : Row3)
    (ho : o ∈ mergeBreaks report breaks) : o.base ∈ report := by
  simp only [mergeBreaks, List.mem_flatMap] at ho
  obtain ⟨r, hr, ho⟩ := ho
  cases hf : breaks.filter (fun b => b.dutyId == r.base.dutyId) with
  | nil =>
    rw [hf] at ho
    simp at ho
    rw [ho]
    exact hr
  | cons b bs =>
    rw [hf] at ho
    obtain ⟨b', _, hb'⟩ := List.mem_map.mp ho
    rw [← hb']
    exact hr

lemma mergeBreaks_cons_nil (x : Row2) (xs : List Row2) (breaks : List BreakRec)
    (hf : breaks.filter (fun b => b.dutyId == x.base.dutyId) = []) :
    mergeBreaks (x :: xs) breaks
      = ({ base := x, duration := none, breakStart := none, breakStop := none } : Row3)
          :: mergeBreaks xs breaks := by
  simp [mergeBreaks, List.flatMap_cons, hf]

lemma mergeBreaks_cons_matches (x : Row2) (xs : List Row2) (breaks : List BreakRec)
    (b : BreakRec) (bs : List BreakRec)
    (hf : breaks.filter (fun y => y.dutyId == x.base.dutyId) = b :: bs) :
    mergeBreaks (x :: xs) breaks
      = (b :: bs).map (fun y =>
          ({ base := x, duration := some y.duration
             breakStart := some y.breakStart, breakStop := some y.breakStop } : Row3))
          ++ mergeBreaks xs breaks := by
  simp [mergeBreaks, List.flatMap_cons, hf]

/-- C3: in the merge step, for a report whose Duty IDs are pairwise distinct
(the duty is the report's unit) and any row `r` of it, the merged rows
carrying `r`'s Duty ID are exactly: one row with null break fields when no
kept break record carries that Duty ID, and otherwise one row per matching
break record, in record order, each duplicating `r`'s non-break columns —
the join is on Duty ID equality, not position. -/
theorem c3_merge_fanout (report : List Row2) (breaks : List BreakRec) (r : Row2)
    (hnd : (report.map (fun x => x.base.dutyId)).Nodup) (hr : r ∈ report) :
    (mergeBreaks report breaks).filter (fun o => o.base.base.dutyId == r.base.dutyId)
      = if breaks.filter (fun b => b.dutyId == r.base.dutyId) = []
        then [{ base := r, duration := none, breakStart := none, breakStop := none }]
        else (breaks.filter (fun b => b.dutyId == r.base.dutyId)).map (fun b =>
          { base := r, duration := some b.duration
            breakStart := some b.breakStart, breakStop := some b.breakStop }) := by
  induction report with
  | nil => cases hr
  | cons x xs ih =>
    have hnd' : (xs.map (fun x => x.base.dutyId)).Nodup := by
      rw [List.map_cons] at hnd
      exact (List.nodup_cons.mp hnd).2
    have hx_not : x.base.dutyId ∉ xs.map (fun y => y.base.dutyId) := by
      rw [List.map_cons] at hnd
      exact (List.nodup_cons.mp hnd).1
    rcases List.mem_cons.mp hr with rfl | hrxs
    · have htail : (mergeBreaks xs breaks).filter
          (fun o => o.base.base.dutyId == r.base.dutyId) = [] := by
        rw [List.filter_eq_nil_iff]
        intro o ho hcon
        have hob : o.base ∈ xs := mem_mergeBreaks_base xs breaks o ho
        have hoid : o.base.base.dutyId = r.base.dutyId := by simpa using hcon
        refine hx_not ?_
        rw [← hoid]
        exact List.mem_map_of_mem (fun y => y.base.dutyId) hob
      cases hf : breaks.filter (fun b => b.dutyId == r.base.dutyId) with
      | nil =>
        rw [mergeBreaks_cons_nil r xs breaks hf, if_pos rfl,
          List.filter_cons_of_pos (by simp), htail]
      | cons b bs =>
        rw [mergeBreaks_cons_matches r xs breaks b bs hf, List.filter_append, htail,
          List.append_nil, if_neg (by simp)]
        rw [List.filter_eq_self]
        intro o ho
        obtain ⟨b', _, hb'⟩ := List.mem_map.mp ho
        rw [← hb']
        simp
    · have hne : x.base.dutyId ≠ r.base.dutyId := by
        intro hcon
        exact hx_not (hcon ▸ List.mem_map_of_mem (fun y => y.base.dutyId) hrxs)
      cases hf : breaks.filter (fun b => b.dutyId == x.base.dutyId) with
      | nil =>
        rw [mergeBreaks_cons_nil x xs breaks hf, List.filter_cons_of_neg (by simp [hne])]
        exact ih hnd' hrxs
      | cons b bs =>
        have h0 : ((b :: bs).map (fun y =>
            ({ base := x, duration := some y.duration
               breakStart := some y.breakStart, breakStop := some y.breakStop } : Row3))).filter
              (fun o => o.base.base.dutyId == r.base.dutyId) = [] := by
          rw [List.filter_eq_nil_iff]
          intro o ho hcon
          obtain ⟨b', _, hb'⟩ := List.mem_map.mp ho
          rw [← hb'] at hcon
          exact hne (by simpa using hcon)
        rw [mergeBreaks_cons_matches x xs breaks b bs hf, List.filter_append, h0,
          List.nil_append]
        exact ih hnd' hrxs

/-- Witness for C3: a two-duty report and one break record for duty `"B"`:
duty `"B"`'s merged rows are just the fan-out of its single break. -/
theorem c3_merge_fanout_witness :
    (mergeBreaks [⟨⟨"A", "07:00", "08:00"⟩, none, none⟩, ⟨⟨"B", "09:00", "11:00"⟩, none, none⟩]
        [⟨"B", 20, "10:20", "S"⟩]).filter (fun o => o.base.base.dutyId == "B")
      = [⟨⟨⟨"B", "09:00", "11:00"⟩, none, none⟩, some 20, some "10:20", some "S"⟩] :=
  (c3_merge_fanout
    [⟨⟨"A", "07:00", "08:00"⟩, none, none⟩, ⟨⟨"B", "09:00", "11:00"⟩, none, none⟩]
    [⟨"B", 20, "10:20", "S"⟩] ⟨⟨"B", "09:00", "11:00"⟩, none, none⟩
    (by decide) (by decide)).trans (by decide)
